import Mathlib

/-!
Shallow embedding of the kodo storage driver (package kodo) and the parts
of the qiniu kodocli upload client it relies on.  Each definition is a
direct translation of the corresponding Go function; fields and names
follow the source where Lean allows it.
-/

set_option autoImplicit false

deriving instance DecidableEq for Except

namespace Kodo

/-! ## Error model

The Go code distinguishes the qiniu rpc error type (rpc.ErrorInfo, carrying
a numeric Code), the io.EOF sentinel, and arbitrary other errors. -/

inductive RpcErr where
  | errorInfo (code : Nat)
  | eof
  | other (msg : String)
deriving DecidableEq

/-- Driver-level errors: storagedriver.PathNotFoundError or a raw
passed-through backend error. -/
inductive DErr where
  | pathNotFound (path : String)
  | raw (e : RpcErr)
deriving DecidableEq

/-- Translation of isKeyNotExists: true exactly for an rpc.ErrorInfo with
Code 612. -/
def isKeyNotExists : RpcErr → Bool
  | RpcErr.errorInfo code => decide (code = 612)
  | _ => false

/-- Translation of parseError: an rpc.ErrorInfo with Code 612 becomes
PathNotFoundError for the given path; any other error (and nil) passes
through unchanged. -/
def parseError (path : String) (err : Option RpcErr) : Option DErr :=
  match err with
  | none => none
  | some (RpcErr.errorInfo code) =>
    if code = 612 then some (DErr.pathNotFound path)
    else some (DErr.raw (RpcErr.errorInfo code))
  | some e => some (DErr.raw e)

/-- Translation of driver.Move: delegate to bucket.Move and run the whole
result through parseError for the source path. -/
def driverMove (moveErr : Option RpcErr) (sourcePath : String) : Option DErr :=
  parseError sourcePath moveErr

/-- The err-handling pattern shared by Stat, List and Delete:
`if err != nil { if err != io.EOF { return err }; err = nil }`.
Returns the error that is surfaced, none when execution proceeds. -/
def fatalErr : Option RpcErr → Option RpcErr
  | none => none
  | some e => if e = RpcErr.eof then none else some e

/-- The retry condition of bucketlistWithRetry: err is an rpc.ErrorInfo
with Code 599. -/
def is599 : Option RpcErr → Bool
  | some (RpcErr.errorInfo code) => decide (code = 599)
  | _ => false

/-! ## Go string primitives used by the driver -/

/-- strings.TrimLeft(s, cutset) for the one-character cutset used by the
driver, on the character list. -/
def trimLeftSlashAux : List Char → List Char
  | [] => []
  | c :: cs => if c = '/' then trimLeftSlashAux cs else c :: cs

/-- strings.TrimLeft(s, sl) where sl is the one-character slash cutset. -/
def goTrimLeftSlash (s : String) : String :=
  String.mk (trimLeftSlashAux s.data)

/-- strings.TrimRight(s, sl) where sl is the one-character slash cutset. -/
def goTrimRightSlash (s : String) : String :=
  String.mk (trimLeftSlashAux s.data.reverse).reverse

/-- strings.TrimSuffix(s, sl): removes at most one trailing slash. -/
def goTrimSuffixSlash (s : String) : String :=
  if s.data.getLast? = some '/' then String.mk s.data.dropLast else s

/-- Whether the last byte of the path is a slash
(the `path\x5blen(path)-1\x5d != a slash` test of driver.List). -/
def goEndsWithSlash (s : String) : Bool :=
  s.data.getLast? = some '/'

/-- Helper for strings.Replace with n = 1 and a non-empty pattern:
replace the first occurrence of old by new. -/
def replaceFirstAux (old new : List Char) : List Char → List Char
  | [] => []
  | c :: cs =>
    if old.isPrefixOf (c :: cs) then new ++ (c :: cs).drop old.length
    else c :: replaceFirstAux old new cs

/-- strings.Replace(s, old, new, 1).  Go semantics: when old is empty and
n = 1, new is inserted once, at the start of s. -/
def goReplace1 (s old new : String) : String :=
  if old.data = [] then String.mk (new.data ++ s.data)
  else String.mk (replaceFirstAux old.data new.data s.data)

/-- driver.getKey: strip all leading slashes from rootDirectory + path. -/
def getKey (root path : String) : String :=
  goTrimLeftSlash (root ++ path)

/-- New trims trailing slashes from the configured root directory before
the driver is built. -/
def normRoot (root : String) : String :=
  goTrimRightSlash root

/-! ## The write session (type writer of the driver)

The Go writer owns an io.Pipe whose read end is drained by one background
goroutine; close() joins that goroutine.  In the embedding the pipe is the
pair of the `pipeOpen` flag (rd and wt are non-nil) and `written`, the
bytes accepted so far in submitted order; the background upload error that
the goroutine stores into w.err is the `err` field.  Remote side effects
(finishing the segmented put when the pipe is closed, the delete issued by
Cancel) are returned explicitly. -/

inductive RemoteAction where
  | finishUpload (path : String)
  | deletePath (path : String)
deriving DecidableEq

/-- Errors a write-session call can return: the three guard errors
(fmt.Errorf of already closed, already committed, already cancelled) and a
captured background error. -/
inductive WriterErr where
  | alreadyClosed
  | alreadyCommitted
  | alreadyCancelled
  | background (e : RpcErr)
deriving DecidableEq

structure Writer where
  path : String
  size : Int
  from_ : Int
  closed : Bool
  committed : Bool
  cancelled : Bool
  err : Option RpcErr
  pipeOpen : Bool
  written : List Nat
deriving DecidableEq

/-- Translation of newFileWriter: size and from start at the resume
offset, all flags false, no pipe yet. -/
def newFileWriter (path : String) (size : Int) : Writer :=
  { path := path, size := size, from_ := size,
    closed := false, committed := false, cancelled := false,
    err := none, pipeOpen := false, written := [] }

/-- Translation of writer.close(): when the pipe exists, close it and join
the background goroutine; the upload then completes against the remote
store. -/
def Writer.closePipe (w : Writer) : Writer × List RemoteAction :=
  if w.pipeOpen then
    ({ w with pipeOpen := false }, [RemoteAction.finishUpload w.path])
  else (w, [])

/-- Translation of writer.Write: guard on the three terminal flags in
order, then surface a captured background error, then lazily open the pipe
and stream p, incrementing size. -/
def Writer.WriteOp (w : Writer) (p : List Nat) : Except WriterErr Nat × Writer :=
  if w.closed then (Except.error WriterErr.alreadyClosed, w)
  else if w.committed then (Except.error WriterErr.alreadyCommitted, w)
  else if w.cancelled then (Except.error WriterErr.alreadyCancelled, w)
  else
    match w.err with
    | some e => (Except.error (WriterErr.background e), w)
    | none =>
      (Except.ok p.length,
       { w with pipeOpen := true, written := w.written ++ p,
                size := w.size + (p.length : Int) })

/-- Translation of writer.Close: only the closed flag is checked; then the
pipe is closed (joining the background task), a captured error is returned
without setting closed, otherwise closed is set. -/
def Writer.CloseOp (w : Writer) : Except WriterErr Unit × Writer × List RemoteAction :=
  if w.closed then (Except.error WriterErr.alreadyClosed, w, [])
  else
    let c := w.closePipe
    match c.1.err with
    | some e => (Except.error (WriterErr.background e), c.1, c.2)
    | none => (Except.ok (), { c.1 with closed := true }, c.2)

/-- Translation of writer.Commit: all three terminal flags are checked,
then the pipe is closed, a captured error is returned without setting
committed, otherwise committed is set. -/
def Writer.CommitOp (w : Writer) : Except WriterErr Unit × Writer × List RemoteAction :=
  if w.closed then (Except.error WriterErr.alreadyClosed, w, [])
  else if w.committed then (Except.error WriterErr.alreadyCommitted, w, [])
  else if w.cancelled then (Except.error WriterErr.alreadyCancelled, w, [])
  else
    let c := w.closePipe
    match c.1.err with
    | some e => (Except.error (WriterErr.background e), c.1, c.2)
    | none => (Except.ok (), { c.1 with committed := true }, c.2)

/-- Translation of writer.Cancel: only closed and committed are checked;
then the pipe is closed, cancelled is set, and a best-effort delete of the
path is issued against the remote store, whose result (delRes) is returned
as the call result. -/
def Writer.CancelOp (w : Writer) (delRes : Option DErr) :
    Except WriterErr (Option DErr) × Writer × List RemoteAction :=
  if w.closed then (Except.error WriterErr.alreadyClosed, w, [])
  else if w.committed then (Except.error WriterErr.alreadyCommitted, w, [])
  else
    let c := w.closePipe
    (Except.ok delRes, { c.1 with cancelled := true },
     c.2 ++ [RemoteAction.deletePath w.path])

/-- Running a sequence of Write calls, stopping at the first error
(as the registry blob-upload loop does). -/
def writeMany (w : Writer) : List (List Nat) → Except WriterErr Unit × Writer
  | [] => (Except.ok (), w)
  | p :: rest =>
    let r := w.WriteOp p
    match r.1 with
    | Except.error e => (Except.error e, r.2)
    | Except.ok _ => writeMany r.2 rest

/-! ## The segmented-put part list (writer.background and kodocli) -/

/-- kodo.PutPart as the writer uses it: either the direct live stream (the
R field; in the embedding it carries the bytes the pipe will deliver, in
submitted order) or a copy reference Key with byte range from/to. -/
inductive PutPartM where
  | direct (bytes : List Nat)
  | copy (key : String) (from_ to_ : Int)
deriving DecidableEq

/-- Translation of writer.background building the part list: a copy part
over the same key for range 0..from, appended only when from > 0, then the
single direct part consuming the pipe. -/
def backgroundParts (key : String) (from_ : Int) (written : List Nat) : List PutPartM :=
  (if from_ > 0 then [PutPartM.copy key 0 from_] else []) ++ [PutPartM.direct written]

/-- The json part records sent in the parts field of the multipart body
(kodocli type part). -/
inductive JPart where
  | directJ (crc32 : Nat)
  | copyJ (storageFile : String) (range : String)
deriving DecidableEq

/-- Translation of addCopyFile: a copy range is valid when to == -1 or
to > from; otherwise the invalid from&to error is returned. -/
def addCopyFile (key : String) (from_ to_ : Int) : Except String JPart :=
  if to_ = -1 ∨ to_ > from_ then
    Except.ok (JPart.copyJ key (toString from_ ++ "-" ++ toString to_))
  else Except.error "invalid from and to argument"

/-- Translation of the dispatch loop of copyMultipart over the part list:
a part with R set becomes a direct json part (crc32 0 here: the writer
sets CheckCrc false and Crc32 0), otherwise addCopyFile runs. -/
def partsToArg : List PutPartM → Except String (List JPart)
  | [] => Except.ok []
  | PutPartM.direct _ :: rest =>
    match partsToArg rest with
    | Except.error e => Except.error e
    | Except.ok js => Except.ok (JPart.directJ 0 :: js)
  | PutPartM.copy k f t :: rest =>
    match addCopyFile k f t with
    | Except.error e => Except.error e
    | Except.ok j =>
      match partsToArg rest with
      | Except.error e => Except.error e
      | Except.ok js => Except.ok (j :: js)

/-! ## The backend list call, retry, Stat, List, Delete -/

/-- kodo.ListItem, the fields Stat uses. -/
structure ListItem where
  key : String
  fsize : Int
  putTime : Int
deriving DecidableEq

/-- The argument tuple of one bucket.List page call. -/
structure ListArgs where
  pfx : String
  delimiter : String
  marker : String
  limit : Nat
deriving DecidableEq

/-- What one bucket.List call returns (Go returns the values and the error
together, so both are present even on error). -/
structure ListReply where
  items : List ListItem
  commonPrefixes : List String
  markerOut : String
  err : Option RpcErr
deriving DecidableEq

/-- The remote store as an oracle: a reply for every argument tuple and
attempt index (attempt 0 is the first call, attempt 1 the retry). -/
def Backend := ListArgs → Nat → ListReply

def listMax : Nat := 1000

/-- Translation of bucketlistWithRetry: a for-loop of two iterations that
re-calls b.List with the same arguments only when the previous error was
an rpc.ErrorInfo with Code 599, and otherwise stops at the first reply. -/
def bucketlistWithRetry (b : Backend) (args : ListArgs) : ListReply :=
  if is599 (b args 0).err then b args 1 else b args 0

/-- The attempts bucketlistWithRetry actually makes, in order. -/
def retryCalls (b : Backend) (args : ListArgs) : List (ListArgs × Nat) :=
  if is599 (b args 0).err then [(args, 0), (args, 1)] else [(args, 0)]

/-- Translation of driver.Stat: one page call with limit 1 at the key of
the path, the io.EOF error swallowed; no item means PathNotFoundError; an
item whose key differs from the requested key is a synthetic directory. -/
def driverStat (b : Backend) (root path : String) :
    Except DErr (String × Int × Int × Bool) :=
  let reply := bucketlistWithRetry b ⟨getKey root path, "", "", 1⟩
  match fatalErr reply.err with
  | some e => Except.error (DErr.raw e)
  | none =>
    match reply.items with
    | [] => Except.error (DErr.pathNotFound path)
    | item :: _ =>
      let isDir := getKey root path ≠ item.key
      Except.ok (path, (if isDir then 0 else item.fsize),
                 (if isDir then 0 else item.putTime * 100), isDir)

/-- Translation of driver.Writer: with append, Stat first; a stat error
other than PathNotFoundError aborts; PathNotFoundError leaves the offset
at 0; otherwise the offset is the stat size. -/
def driverWriter (b : Backend) (root path : String) (app : Bool) :
    Except DErr Writer :=
  if app then
    match driverStat b root path with
    | Except.error e =>
      if e = DErr.pathNotFound path then Except.ok (newFileWriter path 0)
      else Except.error e
    | Except.ok fi => Except.ok (newFileWriter path fi.2.1)
  else Except.ok (newFileWriter path 0)

/-- The path normalization at the head of driver.List: append a trailing
slash unless the path is the root or already ends in one. -/
def pathNorm (opath : String) : String :=
  if opath ≠ "/" ∧ goEndsWithSlash opath = false then opath ++ "/" else opath

/-- The page loop of driver.List, with fuel for the unbounded Go for-loop
(none = the loop did not finish within fuel pages).  files and dirs are
the two accumulators; every item key and trimmed common prefix is passed
through strings.Replace(x, rootKey, rootPfx, 1). -/
def listLoop (b : Backend) (kp rootKey rootPfx : String) :
    String → List String → List String → Nat →
    Option (Except DErr (List String × List String))
  | _, _, _, 0 => none
  | marker, files, dirs, fuel + 1 =>
    let reply := bucketlistWithRetry b ⟨kp, "/", marker, listMax⟩
    match fatalErr reply.err with
    | some e => some (Except.error (DErr.raw e))
    | none =>
      let files2 := files ++ reply.items.map (fun it => goReplace1 it.key rootKey rootPfx)
      let dirs2 := dirs ++ reply.commonPrefixes.map
        (fun p => goReplace1 (goTrimSuffixSlash p) rootKey rootPfx)
      if reply.markerOut = "" then some (Except.ok (files2, dirs2))
      else listLoop b kp rootKey rootPfx reply.markerOut files2 dirs2 fuel

/-- Translation of driver.List. -/
def driverList (b : Backend) (root opath : String) (fuel : Nat) :
    Option (Except DErr (List String)) :=
  let path := pathNorm opath
  let rootKey := getKey root ""
  let rootPfx := if rootKey = "" then "/" else ""
  match listLoop b (getKey root path) rootKey rootPfx "" [] [] fuel with
  | none => none
  | some (Except.error e) => some (Except.error e)
  | some (Except.ok (files, dirs)) =>
    if opath ≠ "/" ∧ files = [] ∧ dirs = [] then
      some (Except.error (DErr.pathNotFound opath))
    else some (Except.ok (files ++ dirs))

/-- The page calls driver.List issues (each page through
bucketlistWithRetry), recording the exact argument tuples and attempt
indices. -/
def listCalls (b : Backend) (kp : String) : String → Nat → List (ListArgs × Nat)
  | _, 0 => []
  | marker, fuel + 1 =>
    let args : ListArgs := ⟨kp, "/", marker, listMax⟩
    let reply := bucketlistWithRetry b args
    retryCalls b args ++
      (match fatalErr reply.err with
       | some _ => []
       | none =>
         if reply.markerOut = "" then []
         else listCalls b kp reply.markerOut fuel)

/-! ## driver.Delete -/

/-- The observable effects of a Delete run: the keys successfully deleted
at the remote store and the keys enqueued for cache invalidation, each in
execution order. -/
structure DelEffects where
  deleted : List String
  enqueued : List String
deriving DecidableEq

/-- The per-item loop inside driver.Delete over one listed page.  delb is
the remote per-key delete (none = success).  An rpc 612 (key does not
exist) is skipped with continue; any other error aborts; on success the
key is deleted and then enqueued for invalidation (refreshCache is the
buffered-channel send and returns nil, so its error check never fires). -/
def deleteKeys (delb : String → Option RpcErr) : List ListItem → Except RpcErr DelEffects
  | [] => Except.ok ⟨[], []⟩
  | it :: rest =>
    match delb it.key with
    | some e =>
      if isKeyNotExists e then deleteKeys delb rest
      else Except.error e
    | none =>
      match deleteKeys delb rest with
      | Except.error e => Except.error e
      | Except.ok eff => Except.ok ⟨it.key :: eff.deleted, it.key :: eff.enqueued⟩

/-- The page loop of driver.Delete: list a page of keys under the path key
with empty delimiter, abort on fatal list errors (io.EOF swallowed),
return PathNotFoundError when the running item count is still zero after
the page, process the page items, continue while the marker is non-empty. -/
def deleteLoop (b : Backend) (delb : String → Option RpcErr) (path kp : String) :
    String → Nat → DelEffects → Nat → Option (Except DErr DelEffects)
  | _, _, _, 0 => none
  | marker, cnt, acc, fuel + 1 =>
    let reply := bucketlistWithRetry b ⟨kp, "", marker, listMax⟩
    match fatalErr reply.err with
    | some e => some (Except.error (DErr.raw e))
    | none =>
      let cnt2 := cnt + reply.items.length
      if cnt2 = 0 then some (Except.error (DErr.pathNotFound path))
      else
        match deleteKeys delb reply.items with
        | Except.error e => some (Except.error (DErr.raw e))
        | Except.ok eff =>
          let acc2 : DelEffects :=
            ⟨acc.deleted ++ eff.deleted, acc.enqueued ++ eff.enqueued⟩
          if reply.markerOut = "" then some (Except.ok acc2)
          else deleteLoop b delb path kp reply.markerOut cnt2 acc2 fuel

/-- Translation of driver.Delete. -/
def driverDelete (b : Backend) (delb : String → Option RpcErr)
    (root path : String) (fuel : Nat) : Option (Except DErr DelEffects) :=
  deleteLoop b delb path (getKey root path) "" 0 ⟨[], []⟩ fuel

/-! ## driver.Reader -/

/-- The HTTP response the signed-URL GET produced. -/
structure HttpResp where
  status : Nat
  body : List Nat
deriving DecidableEq

/-- Translation of the response handling of driver.Reader: exactly an HTTP
404 becomes PathNotFoundError; every other status returns the body as the
successful stream. -/
def driverReader (path : String) (resp : HttpResp) : Except DErr (List Nat) :=
  if resp.status = 404 then Except.error (DErr.pathNotFound path)
  else Except.ok resp.body

/-- The Range header driver.Reader attaches: only for a positive offset. -/
def readerRangeHeader (offset : Int) : Option String :=
  if offset > 0 then some ("bytes=" ++ toString offset ++ "-") else none

/-! ## The cache-invalidation queue (New, refreshCache, refreshWorker)

The channel refreshCh is a bounded FIFO buffer; a send appends when a slot
is free and blocks the sender when the buffer is full (modelled as none).
New creates it with capacity 100 and starts 10 refreshWorker goroutines. -/

structure RefreshPool where
  capacity : Nat
  workers : Nat
deriving DecidableEq

/-- The constants of New: make(chan string, 100) and ten go
d.refreshWorker() launches. -/
def newRefreshPool : RefreshPool :=
  { capacity := 100, workers := 10 }

/-- A buffered-channel send: append when below capacity, block (none)
when full. -/
def chanSend (q : List String) (key : String) : Option (List String) :=
  if q.length < newRefreshPool.capacity then some (q ++ [key]) else none

/-- Translation of refreshCache: the async channel send; the function
itself always returns a nil error once the send completes. -/
def refreshCache (q : List String) (key : String) :
    Option (List String) × Option DErr :=
  (chanSend q key, none)

/-- One iteration of refreshWorker: receive a key from the channel and run
refreshCacheNow on it, discarding its result entirely (the outcome oracle
says whether the refresh call failed; the queue evolution ignores it). -/
def refreshWorkerStep (outcome : String → Option RpcErr) (q : List String) :
    Option (List String × String) :=
  match q with
  | [] => none
  | k :: rest =>
    let _ := outcome k
    some (rest, k)

/-! ## Concrete backends used to instantiate the theorems -/

/-- A store holding one object whose key is the letter a, size 7. -/
def bStatFound : Backend := fun _ _ => ⟨[⟨"a", 7, 3⟩], [], "", none⟩

/-- An empty store: every list call returns no items and no error. -/
def bStatEmpty : Backend := fun _ _ => ⟨[], [], "", none⟩

/-- A store whose list call fails with rpc code 612. -/
def bErr612 : Backend := fun _ _ => ⟨[], [], "", some (RpcErr.errorInfo 612)⟩

/-- A one-page store with one entry and one common prefix under d. -/
def bOnePage : Backend := fun _ _ => ⟨[⟨"d/x", 1, 0⟩], ["d/y/"], "", none⟩

/-- A store whose first list attempt fails with the transient code 599 and
whose second attempt succeeds. -/
def bRetry599 : Backend := fun _ n =>
  if n = 0 then ⟨[], [], "", some (RpcErr.errorInfo 599)⟩
  else ⟨[⟨"k", 1, 0⟩], [], "", none⟩

/-- A per-key delete that reports 612 for the key named bad and succeeds
elsewhere. -/
def delSkipBad : String → Option RpcErr :=
  fun k => if k = "bad" then some (RpcErr.errorInfo 612) else none

/-- A one-page store listing two keys. -/
def bTwoKeys : Backend := fun _ _ => ⟨[⟨"a", 0, 0⟩, ⟨"b", 0, 0⟩], [], "", none⟩

/-! ## Helper lemmas -/

lemma isKeyNotExists_iff (e : RpcErr) :
    isKeyNotExists e = true ↔ e = RpcErr.errorInfo 612 := by
  cases e <;> simp [isKeyNotExists]

lemma writeMany_ok (ps : List (List Nat)) : ∀ w : Writer,
    w.closed = false → w.committed = false → w.cancelled = false → w.err = none →
    (writeMany w ps).1 = Except.ok () ∧
    (writeMany w ps).2.written = w.written ++ ps.flatten := by
  induction ps with
  | nil => intro w _ _ _ _; simp [writeMany]
  | cons p rest ih =>
    intro w hc hm hx he
    have hw : w.WriteOp p =
        (Except.ok p.length,
         { w with pipeOpen := true, written := w.written ++ p,
                  size := w.size + (p.length : Int) }) := by
      simp [Writer.WriteOp, hc, hm, hx, he]
    have := ih { w with pipeOpen := true, written := w.written ++ p,
                        size := w.size + (p.length : Int) } hc hm hx he
    simpa [writeMany, hw, List.append_assoc] using this

/-! ## Claim theorems -/

/-- C1 counterexample: the terminal flags are not mutually exclusive and a
later terminal call can succeed and can touch the remote store.  On a
fresh session, Cancel succeeds; the subsequent Close also succeeds (it is
not rejected with an already-cancelled condition) and leaves both closed
and cancelled set; and a second Cancel issues the remote delete again. -/
theorem C1_counterexample :
    (Writer.CancelOp (newFileWriter "p" 0) none).1 = Except.ok none ∧
    (Writer.CloseOp (Writer.CancelOp (newFileWriter "p" 0) none).2.1).1 = Except.ok () ∧
    (Writer.CloseOp (Writer.CancelOp (newFileWriter "p" 0) none).2.1).2.1.closed = true ∧
    (Writer.CloseOp (Writer.CancelOp (newFileWriter "p" 0) none).2.1).2.1.cancelled = true ∧
    (Writer.CancelOp (Writer.CancelOp (newFileWriter "p" 0) none).2.1 none).2.2 =
      [RemoteAction.deletePath "p"] := by
  decide

/-- C1 (amended): Write and Commit are rejected after any terminal
transition, with an error naming the transition that already occurred, and
leave local and remote state untouched; Close is rejected only when the
session is already closed, so a Close after Commit or after Cancel
succeeds and sets closed alongside the other flag; Cancel is rejected only
after Close or Commit, and a repeated Cancel issues the remote delete
again. -/
theorem C1_amended_guards (w : Writer) (p : List Nat) (dr : Option DErr) :
    (w.closed = true →
       w.WriteOp p = (Except.error WriterErr.alreadyClosed, w) ∧
       w.CloseOp = (Except.error WriterErr.alreadyClosed, w, []) ∧
       w.CommitOp = (Except.error WriterErr.alreadyClosed, w, []) ∧
       w.CancelOp dr = (Except.error WriterErr.alreadyClosed, w, [])) ∧
    (w.closed = false → w.committed = true →
       w.WriteOp p = (Except.error WriterErr.alreadyCommitted, w) ∧
       w.CommitOp = (Except.error WriterErr.alreadyCommitted, w, []) ∧
       w.CancelOp dr = (Except.error WriterErr.alreadyCommitted, w, []) ∧
       (w.err = none →
          (w.CloseOp).1 = Except.ok () ∧ (w.CloseOp).2.1.closed = true ∧
          (w.CloseOp).2.1.committed = true)) ∧
    (w.closed = false → w.committed = false → w.cancelled = true →
       w.WriteOp p = (Except.error WriterErr.alreadyCancelled, w) ∧
       w.CommitOp = (Except.error WriterErr.alreadyCancelled, w, []) ∧
       (w.err = none →
          (w.CloseOp).1 = Except.ok () ∧ (w.CloseOp).2.1.closed = true ∧
          (w.CloseOp).2.1.cancelled = true) ∧
       (w.CancelOp dr).1 = Except.ok dr ∧
       RemoteAction.deletePath w.path ∈ (w.CancelOp dr).2.2) := by
  refine ⟨?_, ?_, ?_⟩
  · intro hc
    simp [Writer.WriteOp, Writer.CloseOp, Writer.CommitOp, Writer.CancelOp, hc]
  · intro hc hm
    refine ⟨?_, ?_, ?_, ?_⟩
    · simp [Writer.WriteOp, hc, hm]
    · simp [Writer.CommitOp, hc, hm]
    · simp [Writer.CancelOp, hc, hm]
    · intro he
      cases hp : w.pipeOpen <;>
        simp [Writer.CloseOp, Writer.closePipe, hc, hm, he, hp]
  · intro hc hm hx
    refine ⟨?_, ?_, ?_, ?_, ?_⟩
    · simp [Writer.WriteOp, hc, hm, hx]
    · simp [Writer.CommitOp, hc, hm, hx]
    · intro he
      cases hp : w.pipeOpen <;>
        simp [Writer.CloseOp, Writer.closePipe, hc, hx, he, hp]
    · cases hp : w.pipeOpen <;>
        simp [Writer.CancelOp, Writer.closePipe, hc, hm, hp]
    · cases hp : w.pipeOpen <;>
        simp [Writer.CancelOp, Writer.closePipe, hc, hm, hp]

/-- Witness for C1 (amended) at three concrete sessions, one per terminal
flag. -/
theorem C1_amended_guards_witness :
    Writer.WriteOp { newFileWriter "p" 0 with closed := true } [1] =
      (Except.error WriterErr.alreadyClosed, { newFileWriter "p" 0 with closed := true }) ∧
    Writer.CommitOp { newFileWriter "p" 0 with committed := true } =
      (Except.error WriterErr.alreadyCommitted,
       { newFileWriter "p" 0 with committed := true }, []) ∧
    (Writer.CancelOp { newFileWriter "p" 0 with cancelled := true } none).1 =
      Except.ok none := by
  refine ⟨((C1_amended_guards { newFileWriter "p" 0 with closed := true } [1] none).1
      (by decide)).1, ?_, ?_⟩
  · exact ((C1_amended_guards { newFileWriter "p" 0 with committed := true } [1] none).2.1
      (by decide) (by decide)).2.1
  · exact ((C1_amended_guards { newFileWriter "p" 0 with cancelled := true } [1] none).2.2
      (by decide) (by decide) (by decide)).2.2.2.1

/-- C10: a captured background error is returned by Close and Commit
without finalizing the session: the closed and committed flags stay unset,
so the next Close, Commit or Cancel is not rejected with an
already-closed or already-committed condition and can be attempted
again. -/
theorem C10_background_error (w : Writer) (e : RpcErr) (he : w.err = some e) :
    (w.closed = false →
       (w.CloseOp).1 = Except.error (WriterErr.background e) ∧
       (w.CloseOp).2.1.closed = false ∧
       (w.CloseOp).2.1.committed = w.committed ∧
       (w.CloseOp).2.1.cancelled = w.cancelled ∧
       ((w.CloseOp).2.1.CloseOp).1 = Except.error (WriterErr.background e)) ∧
    (w.closed = false → w.committed = false → w.cancelled = false →
       (w.CommitOp).1 = Except.error (WriterErr.background e) ∧
       (w.CommitOp).2.1.committed = false ∧
       ((w.CommitOp).2.1.CommitOp).1 = Except.error (WriterErr.background e) ∧
       ((w.CommitOp).2.1.CancelOp none).1 = Except.ok none) := by
  constructor
  · intro hc
    cases hp : w.pipeOpen <;>
      simp [Writer.CloseOp, Writer.closePipe, hc, he, hp]
  · intro hc hm hx
    cases hp : w.pipeOpen <;>
      simp [Writer.CommitOp, Writer.CancelOp, Writer.closePipe, hc, hm, hx, he, hp]

/-- Witness for C10 at a session whose background captured an rpc 599. -/
theorem C10_background_error_witness :
    (Writer.CloseOp { newFileWriter "p" 0 with err := some (RpcErr.errorInfo 599) }).1 =
      Except.error (WriterErr.background (RpcErr.errorInfo 599)) ∧
    (Writer.CommitOp { newFileWriter "p" 0 with err := some (RpcErr.errorInfo 599) }).2.1.committed
      = false := by
  constructor
  · exact ((C10_background_error
      { newFileWriter "p" 0 with err := some (RpcErr.errorInfo 599) }
      (RpcErr.errorInfo 599) rfl).1 rfl).1
  · exact ((C10_background_error
      { newFileWriter "p" 0 with err := some (RpcErr.errorInfo 599) }
      (RpcErr.errorInfo 599) rfl).2 rfl rfl rfl).2.1

/-- C3: on completion the background task submits a leading copy part over
the same key for the byte range 0..from exactly when from > 0, followed by
exactly one direct part whose stream delivers the bytes written during the
session in submitted order; and addCopyFile accepts a copy range exactly
when to == -1 or to > from. -/
theorem C3_background_parts (key : String) (f : Int) (bs : List Nat)
    (p : String) (ps : List (List Nat)) :
    (f > 0 →
       backgroundParts key f bs = [PutPartM.copy key 0 f, PutPartM.direct bs] ∧
       partsToArg (backgroundParts key f bs) =
         Except.ok [JPart.copyJ key (toString (0 : Int) ++ "-" ++ toString f),
                    JPart.directJ 0]) ∧
    (¬ f > 0 → backgroundParts key f bs = [PutPartM.direct bs] ∧
       partsToArg (backgroundParts key f bs) = Except.ok [JPart.directJ 0]) ∧
    (∀ t : Int, (∃ j, addCopyFile key f t = Except.ok j) ↔ (t = -1 ∨ t > f)) ∧
    ((writeMany (newFileWriter p 0) ps).1 = Except.ok () ∧
     (writeMany (newFileWriter p 0) ps).2.written = ps.flatten ∧
     backgroundParts key f (writeMany (newFileWriter p 0) ps).2.written =
       (if f > 0 then [PutPartM.copy key 0 f] else []) ++ [PutPartM.direct ps.flatten]) := by
  have hwm := writeMany_ok ps (newFileWriter p 0) rfl rfl rfl rfl
  refine ⟨?_, ?_, ?_, ?_⟩
  · intro hf
    constructor
    · simp [backgroundParts, hf]
    · simp [backgroundParts, partsToArg, addCopyFile, hf]
  · intro hf
    constructor
    · simp [backgroundParts, hf]
    · simp [backgroundParts, partsToArg, hf]
  · intro t
    constructor
    · rintro ⟨j, hj⟩
      by_contra hcon
      simp [addCopyFile, hcon] at hj
    · intro ht
      refine ⟨JPart.copyJ key (toString f ++ "-" ++ toString t), ?_⟩
      simp [addCopyFile, ht]
  · refine ⟨hwm.1, ?_, ?_⟩
    · simpa [newFileWriter] using hwm.2
    · have : (writeMany (newFileWriter p 0) ps).2.written = ps.flatten := by
        simpa [newFileWriter] using hwm.2
      simp [backgroundParts, this]

/-- Witness for C3 with resume offset 5 and two writes. -/
theorem C3_background_parts_witness :
    partsToArg (backgroundParts "k" 5 [1, 2, 3]) =
      Except.ok [JPart.copyJ "k" "0-5", JPart.directJ 0] ∧
    (writeMany (newFileWriter "p" 0) [[1, 2], [3]]).2.written = [1, 2, 3] := by
  constructor
  · have := ((C3_background_parts "k" 5 [1, 2, 3] "p" [[1, 2], [3]]).1 (by decide)).2
    simpa using this
  · exact ((C3_background_parts "k" 5 [1, 2, 3] "p" [[1, 2], [3]]).2.2.2).2.1

/-- C2: Writer with append first stats the path; when Stat succeeds the
session resume offset from is the stat size; when Stat reports
PathNotFoundError the offset stays 0 and the session equals the one opened
with append false. -/
theorem C2_writer_append (b : Backend) (root path : String) :
    (∀ fi, driverStat b root path = Except.ok fi →
       driverWriter b root path true = Except.ok (newFileWriter path fi.2.1) ∧
       (newFileWriter path fi.2.1).from_ = fi.2.1) ∧
    (driverStat b root path = Except.error (DErr.pathNotFound path) →
       driverWriter b root path true = driverWriter b root path false) ∧
    (∀ e, driverStat b root path = Except.error e → e ≠ DErr.pathNotFound path →
       driverWriter b root path true = Except.error e) ∧
    driverWriter b root path false = Except.ok (newFileWriter path 0) := by
  refine ⟨?_, ?_, ?_, ?_⟩
  · intro fi hfi
    exact ⟨by simp [driverWriter, hfi], rfl⟩
  · intro hnf
    simp [driverWriter, hnf]
  · intro e he hne
    simp [driverWriter, he, hne]
  · simp [driverWriter]

/-- Witness for C2: a store with the object present (size 7) and an empty
store. -/
theorem C2_writer_append_witness :
    driverWriter bStatFound "" "/a" true = Except.ok (newFileWriter "/a" 7) ∧
    driverWriter bStatEmpty "" "/a" true = driverWriter bStatEmpty "" "/a" false := by
  constructor
  · have := ((C2_writer_append bStatFound "" "/a").1 ("/a", 7, 300, false) (by decide)).1
    simpa using this
  · exact (C2_writer_append bStatEmpty "" "/a").2.1 (by decide)

/-- C4 counterexample: a 612 key-not-found error from the backend list
call is not translated by Stat: the raw rpc error, not PathNotFoundError,
is surfaced. -/
theorem C4_counterexample :
    driverStat bErr612 "" "/a" = Except.error (DErr.raw (RpcErr.errorInfo 612)) ∧
    driverStat bErr612 "" "/a" ≠ Except.error (DErr.pathNotFound "/a") := by
  decide

/-- C4 (amended): only Move runs its error through parseError, which turns
exactly the rpc 612 code into PathNotFoundError; Delete treats a per-key
612 as a non-fatal skip; Stat surfaces a 612 list error raw and derives
PathNotFoundError only from an empty item list; Reader translates exactly
the HTTP 404 status. -/
theorem C4_amended_translation (p : String) (e : RpcErr) (b : Backend)
    (root path : String) (delb : String → Option RpcErr) (resp : HttpResp) :
    driverMove (some (RpcErr.errorInfo 612)) p = some (DErr.pathNotFound p) ∧
    (e ≠ RpcErr.errorInfo 612 → driverMove (some e) p = some (DErr.raw e)) ∧
    ((bucketlistWithRetry b ⟨getKey root path, "", "", 1⟩).err =
        some (RpcErr.errorInfo 612) →
       driverStat b root path = Except.error (DErr.raw (RpcErr.errorInfo 612))) ∧
    (∀ it rest, delb it.key = some (RpcErr.errorInfo 612) →
       deleteKeys delb (it :: rest) = deleteKeys delb rest) ∧
    (driverReader path resp = Except.error (DErr.pathNotFound path) ↔
       resp.status = 404) := by
  refine ⟨?_, ?_, ?_, ?_, ?_⟩
  · simp [driverMove, parseError]
  · intro hne
    cases e with
    | errorInfo c =>
      have : c ≠ 612 := by
        intro h; exact hne (by simp [h])
      simp [driverMove, parseError, this]
    | eof => simp [driverMove, parseError]
    | other m => simp [driverMove, parseError]
  · intro h612
    simp [driverStat, fatalErr, h612]
  · intro it rest hit
    simp [deleteKeys, hit, isKeyNotExists]
  · constructor
    · intro h
      by_contra hne
      simp [driverReader, hne] at h
    · intro h
      simp [driverReader, h]

/-- Witness for C4 (amended) at concrete errors, stores and responses. -/
theorem C4_amended_translation_witness :
    driverMove (some RpcErr.eof) "/s" = some (DErr.raw RpcErr.eof) ∧
    driverStat bErr612 "" "/s" = Except.error (DErr.raw (RpcErr.errorInfo 612)) ∧
    deleteKeys delSkipBad [⟨"bad", 0, 0⟩] = deleteKeys delSkipBad [] ∧
    driverReader "/s" ⟨404, []⟩ = Except.error (DErr.pathNotFound "/s") := by
  refine ⟨?_, ?_, ?_, ?_⟩
  · exact (C4_amended_translation "/s" RpcErr.eof bErr612 "" "/s" delSkipBad
      ⟨404, []⟩).2.1 (by decide)
  · exact (C4_amended_translation "/s" RpcErr.eof bErr612 "" "/s" delSkipBad
      ⟨404, []⟩).2.2.1 (by decide)
  · exact (C4_amended_translation "/s" RpcErr.eof bErr612 "" "/s" delSkipBad
      ⟨404, []⟩).2.2.2.1 ⟨"bad", 0, 0⟩ [] (by decide)
  · exact ((C4_amended_translation "/s" RpcErr.eof bErr612 "" "/s" delSkipBad
      ⟨404, []⟩).2.2.2.2).mpr rfl

/-- C8: the invalidation queue built by New has capacity 100 and is
drained by 10 workers; a send blocks exactly when the queue is full and
otherwise appends and reports no error to the producer; a worker removes
one key per iteration and its per-key refresh outcome never influences the
queue (no retry) and is never returned to the producer. -/
theorem C8_refresh_queue (q : List String) (key k : String)
    (o1 o2 : String → Option RpcErr) (rest : List String) :
    newRefreshPool.capacity = 100 ∧
    newRefreshPool.workers = 10 ∧
    (chanSend q key = none ↔ 100 ≤ q.length) ∧
    (q.length < 100 → refreshCache q key = (some (q ++ [key]), none)) ∧
    refreshWorkerStep o1 q = refreshWorkerStep o2 q ∧
    refreshWorkerStep o1 (k :: rest) = some (rest, k) := by
  refine ⟨rfl, rfl, ?_, ?_, ?_, rfl⟩
  · constructor
    · intro h
      by_contra hlt
      simp [chanSend, newRefreshPool, Nat.lt_of_not_le hlt] at h
    · intro h
      simp [chanSend, newRefreshPool, Nat.not_lt.mpr h]
  · intro h
    simp [refreshCache, chanSend, newRefreshPool, h]
  · cases q <;> simp [refreshWorkerStep]

/-- Witness for C8: a full queue of 100 keys blocks the producer; a
one-slot-free queue accepts. -/
theorem C8_refresh_queue_witness :
    chanSend (List.replicate 100 "x") "k" = none ∧
    refreshCache (List.replicate 99 "x") "k" =
      (some (List.replicate 99 "x" ++ ["k"]), none) := by
  constructor
  · exact (C8_refresh_queue (List.replicate 100 "x") "k" "k"
      (fun _ => none) (fun _ => none) []).2.2.1.mpr (by simp)
  · exact (C8_refresh_queue (List.replicate 99 "x") "k" "k"
      (fun _ => none) (fun _ => none) []).2.2.2.1 (by simp)

/-- C9: driver.Reader turns exactly an HTTP 404 into PathNotFoundError;
any other response status, error pages included, is returned as a
successful byte stream with no error. -/
theorem C9_reader_status (path : String) (resp : HttpResp) :
    (resp.status = 404 →
       driverReader path resp = Except.error (DErr.pathNotFound path)) ∧
    (resp.status ≠ 404 → driverReader path resp = Except.ok resp.body) := by
  constructor
  · intro h; simp [driverReader, h]
  · intro h; simp [driverReader, h]

/-- Witness for C9: a 503 error page is returned as content; a 404 maps to
PathNotFoundError. -/
theorem C9_reader_status_witness :
    driverReader "/x" ⟨503, [9, 9]⟩ = Except.ok [9, 9] ∧
    driverReader "/x" ⟨404, [9, 9]⟩ = Except.error (DErr.pathNotFound "/x") := by
  constructor
  · exact (C9_reader_status "/x" ⟨503, [9, 9]⟩).2 (by decide)
  · exact (C9_reader_status "/x" ⟨404, [9, 9]⟩).1 rfl

/-- C5: a page call failing with the transient rpc 599 is retried once
with the identical argument tuple, never more than two attempts in total,
and the second reply is surfaced whatever it is; pagination passes each
returned marker verbatim into the next page call and stops on an empty
returned marker; a fatal page failure is surfaced by the List loop. -/
theorem C5_list_retry_pagination (b : Backend) (args : ListArgs)
    (kp marker : String) (fuel : Nat) :
    (retryCalls b args).length ≤ 2 ∧
    (∀ c ∈ retryCalls b args, c.1 = args) ∧
    (is599 (b args 0).err = false →
       retryCalls b args = [(args, 0)] ∧ bucketlistWithRetry b args = b args 0) ∧
    (is599 (b args 0).err = true →
       retryCalls b args = [(args, 0), (args, 1)] ∧
       bucketlistWithRetry b args = b args 1) ∧
    (fatalErr (bucketlistWithRetry b ⟨kp, "/", marker, listMax⟩).err = none →
       ((bucketlistWithRetry b ⟨kp, "/", marker, listMax⟩).markerOut = "" →
          listCalls b kp marker (fuel + 1) =
            retryCalls b ⟨kp, "/", marker, listMax⟩) ∧
       ((bucketlistWithRetry b ⟨kp, "/", marker, listMax⟩).markerOut ≠ "" →
          listCalls b kp marker (fuel + 1) =
            retryCalls b ⟨kp, "/", marker, listMax⟩ ++
              listCalls b kp
                (bucketlistWithRetry b ⟨kp, "/", marker, listMax⟩).markerOut fuel)) ∧
    (∀ rootKey rootPfx files dirs e,
       (bucketlistWithRetry b ⟨kp, "/", marker, listMax⟩).err = some e →
       e ≠ RpcErr.eof →
       listLoop b kp rootKey rootPfx marker files dirs (fuel + 1) =
         some (Except.error (DErr.raw e))) := by
  refine ⟨?_, ?_, ?_, ?_, ?_, ?_⟩
  · unfold retryCalls; split <;> simp
  · unfold retryCalls; split <;> simp
  · intro h; simp [retryCalls, bucketlistWithRetry, h]
  · intro h; simp [retryCalls, bucketlistWithRetry, h]
  · intro hok
    constructor
    · intro hstop
      simp [listCalls, hok, hstop]
    · intro hgo
      simp [listCalls, hok, hgo]
  · intro rootKey rootPfx files dirs e herr hne
    have hfatal : fatalErr (bucketlistWithRetry b ⟨kp, "/", marker, listMax⟩).err
        = some e := by
      simp [fatalErr, herr, hne]
    simp [listLoop, hfatal]

/-- Witness for C5: a store whose first attempt returns 599 and whose
second succeeds, and a single-page store needing exactly one call. -/
theorem C5_list_retry_pagination_witness :
    retryCalls bRetry599 ⟨"k", "/", "", listMax⟩ =
      [(⟨"k", "/", "", listMax⟩, 0), (⟨"k", "/", "", listMax⟩, 1)] ∧
    bucketlistWithRetry bRetry599 ⟨"k", "/", "", listMax⟩ =
      ⟨[⟨"k", 1, 0⟩], [], "", none⟩ ∧
    listCalls bStatEmpty "k" "" 1 = [(⟨"k", "/", "", listMax⟩, 0)] := by
  refine ⟨?_, ?_, ?_⟩
  · exact ((C5_list_retry_pagination bRetry599 ⟨"k", "/", "", listMax⟩ "k" "" 0).2.2.2.1
      (by decide)).1
  · have := ((C5_list_retry_pagination bRetry599 ⟨"k", "/", "", listMax⟩ "k" "" 0).2.2.2.1
      (by decide)).2
    simpa using this
  · have := ((C5_list_retry_pagination bStatEmpty ⟨"k", "/", "", listMax⟩ "k" "" 0).2.2.2.2.1
      (by decide)).1 (by decide)
    simpa using this

/-- Loop invariant for driver.Delete: the per-page processing enqueues an
invalidation exactly for every key it deleted, and every listed key is
either deleted or skipped because its delete reported 612. -/
lemma deleteKeys_ok (delb : String → Option RpcErr) :
    ∀ items eff, deleteKeys delb items = Except.ok eff →
      eff.enqueued = eff.deleted ∧
      ∀ it ∈ items, it.key ∈ eff.deleted ∨ delb it.key = some (RpcErr.errorInfo 612) := by
  intro items
  induction items with
  | nil =>
    intro eff h
    simp [deleteKeys] at h
    subst h
    simp
  | cons it rest ih =>
    intro eff h
    cases hd : delb it.key with
    | some e =>
      by_cases h612 : isKeyNotExists e = true
      · have he : e = RpcErr.errorInfo 612 := (isKeyNotExists_iff e).mp h612
        rw [deleteKeys, hd] at h
        simp [h612] at h
        rcases ih eff h with ⟨h1, h2⟩
        refine ⟨h1, ?_⟩
        intro x hx
        rcases List.mem_cons.mp hx with hx1 | hx2
        · subst hx1; right; rw [hd, he]
        · exact h2 x hx2
      · rw [deleteKeys, hd] at h
        simp [h612] at h
    | none =>
      cases hr : deleteKeys delb rest with
      | error e2 =>
        rw [deleteKeys, hd, hr] at h
        simp at h
      | ok eff2 =>
        rw [deleteKeys, hd, hr] at h
        simp at h
        rcases ih eff2 hr with ⟨h1, h2⟩
        subst h
        refine ⟨by simp [h1], ?_⟩
        intro x hx
        rcases List.mem_cons.mp hx with hx1 | hx2
        · subst hx1; left; simp
        · rcases h2 x hx2 with hm | hm
          · left; simp [hm]
          · right; exact hm

/-- The Delete page loop preserves the equality of enqueued and deleted
keys. -/
lemma deleteLoop_enqueued (b : Backend) (delb : String → Option RpcErr)
    (path kp : String) :
    ∀ fuel marker cnt acc eff, acc.enqueued = acc.deleted →
      deleteLoop b delb path kp marker cnt acc fuel = some (Except.ok eff) →
      eff.enqueued = eff.deleted := by
  intro fuel
  induction fuel with
  | zero =>
    intro marker cnt acc eff _ h
    simp [deleteLoop] at h
  | succ n ih =>
    intro marker cnt acc eff hacc h
    rw [deleteLoop] at h
    cases hE : fatalErr (bucketlistWithRetry b ⟨kp, "", marker, listMax⟩).err with
    | some e => simp [hE] at h
    | none =>
      simp only [hE] at h
      by_cases hcnt :
          cnt + (bucketlistWithRetry b ⟨kp, "", marker, listMax⟩).items.length = 0
      · simp [hcnt] at h
      · simp only [hcnt, if_false, if_neg hcnt] at h
        cases hdk : deleteKeys delb (bucketlistWithRetry b ⟨kp, "", marker, listMax⟩).items with
        | error e => simp [hdk] at h
        | ok eff2 =>
          simp only [hdk] at h
          have heq2 : eff2.enqueued = eff2.deleted := (deleteKeys_ok delb _ eff2 hdk).1
          by_cases hm : (bucketlistWithRetry b ⟨kp, "", marker, listMax⟩).markerOut = ""
          · simp [hm] at h
            subst h
            simp [hacc, heq2]
          · simp only [hm, if_false, if_neg hm] at h
            exact ih _ _ _ _ (by simp [hacc, heq2]) h

/-- C6: Delete lists pages under the key prefix of the path and deletes
each listed key; an empty first page yields PathNotFoundError; a per-key
612 delete error is skipped and the loop continues; every listed key on a
successfully processed page is deleted or was already missing; and an
invalidation is enqueued exactly for every key deleted. -/
theorem C6_delete_behavior (b : Backend) (delb : String → Option RpcErr)
    (root path : String) (fuel : Nat) :
    ((bucketlistWithRetry b ⟨getKey root path, "", "", listMax⟩).items = [] →
     fatalErr (bucketlistWithRetry b ⟨getKey root path, "", "", listMax⟩).err = none →
     driverDelete b delb root path (fuel + 1) =
       some (Except.error (DErr.pathNotFound path))) ∧
    (∀ it rest, delb it.key = some (RpcErr.errorInfo 612) →
       deleteKeys delb (it :: rest) = deleteKeys delb rest) ∧
    (∀ items eff, deleteKeys delb items = Except.ok eff →
       eff.enqueued = eff.deleted ∧
       ∀ it ∈ items, it.key ∈ eff.deleted ∨
         delb it.key = some (RpcErr.errorInfo 612)) ∧
    (∀ eff, driverDelete b delb root path fuel = some (Except.ok eff) →
       eff.enqueued = eff.deleted) := by
  refine ⟨?_, ?_, ?_, ?_⟩
  · intro hempty hok
    unfold driverDelete
    rw [deleteLoop]
    simp [hok, hempty]
  · intro it rest hit
    simp [deleteKeys, hit, isKeyNotExists]
  · exact deleteKeys_ok delb
  · intro eff h
    exact deleteLoop_enqueued b delb path (getKey root path) fuel "" 0 ⟨[], []⟩ eff rfl h

/-- Witness for C6: a store listing keys a and b where the delete of key
bad reports 612; and the PathNotFoundError case on an empty store. -/
theorem C6_delete_behavior_witness :
    driverDelete bStatEmpty delSkipBad "" "/a" 1 =
      some (Except.error (DErr.pathNotFound "/a")) ∧
    deleteKeys delSkipBad [⟨"bad", 0, 0⟩, ⟨"a", 0, 0⟩] = deleteKeys delSkipBad [⟨"a", 0, 0⟩] ∧
    (∀ eff, driverDelete bTwoKeys delSkipBad "" "/a" 2 = some (Except.ok eff) →
       eff.enqueued = eff.deleted) := by
  refine ⟨?_, ?_, ?_⟩
  · exact (C6_delete_behavior bStatEmpty delSkipBad "" "/a" 0).1 (by decide) (by decide)
  · exact (C6_delete_behavior bStatEmpty delSkipBad "" "/a" 0).2.1
      ⟨"bad", 0, 0⟩ [⟨"a", 0, 0⟩] (by decide)
  · exact (C6_delete_behavior bTwoKeys delSkipBad "" "/a" 2).2.2.2

/-- With an empty root key, strings.Replace(x, rootKey, rootPfx, 1)
prepends the slash. -/
lemma replace_empty_head (k : String) :
    (goReplace1 k "" "/").data.head? = some '/' := rfl

/-- Every error the List page loop produces is a raw backend error, never
PathNotFoundError. -/
lemma listLoop_raw_error (b : Backend) (kp rootKey rootPfx : String) :
    ∀ fuel marker files dirs e,
      listLoop b kp rootKey rootPfx marker files dirs fuel =
        some (Except.error e) →
      ∃ e0, e = DErr.raw e0 := by
  intro fuel
  induction fuel with
  | zero =>
    intro marker files dirs e h
    simp [listLoop] at h
  | succ n ih =>
    intro marker files dirs e h
    rw [listLoop] at h
    cases hE : fatalErr (bucketlistWithRetry b ⟨kp, "/", marker, listMax⟩).err with
    | some e2 =>
      simp [hE] at h
      exact ⟨e2, h.symm⟩
    | none =>
      simp only [hE] at h
      by_cases hm : (bucketlistWithRetry b ⟨kp, "/", marker, listMax⟩).markerOut = ""
      · simp [hm] at h
      · simp only [hm, if_neg hm] at h
        exact ih _ _ _ _ h

/-- With an empty root key and the slash root prefix, every accumulated
List result entry begins with a slash. -/
lemma listLoop_all_slash (b : Backend) (kp : String) :
    ∀ fuel marker files dirs out,
      (∀ s ∈ files, s.data.head? = some '/') →
      (∀ s ∈ dirs, s.data.head? = some '/') →
      listLoop b kp "" "/" marker files dirs fuel = some (Except.ok out) →
      (∀ s ∈ out.1, s.data.head? = some '/') ∧
      (∀ s ∈ out.2, s.data.head? = some '/') := by
  intro fuel
  induction fuel with
  | zero =>
    intro marker files dirs out _ _ h
    simp [listLoop] at h
  | succ n ih =>
    intro marker files dirs out hf hd h
    rw [listLoop] at h
    cases hE : fatalErr (bucketlistWithRetry b ⟨kp, "/", marker, listMax⟩).err with
    | some e2 => simp [hE] at h
    | none =>
      simp only [hE] at h
      have hf2 : ∀ s ∈ files ++
          (bucketlistWithRetry b ⟨kp, "/", marker, listMax⟩).items.map
            (fun it => goReplace1 it.key "" "/"), s.data.head? = some '/' := by
        intro s hs
        rcases List.mem_append.mp hs with hs1 | hs2
        · exact hf s hs1
        · rcases List.mem_map.mp hs2 with ⟨it, _, hit⟩
          rw [← hit]
          exact replace_empty_head it.key
      have hd2 : ∀ s ∈ dirs ++
          (bucketlistWithRetry b ⟨kp, "/", marker, listMax⟩).commonPrefixes.map
            (fun p => goReplace1 (goTrimSuffixSlash p) "" "/"), s.data.head? = some '/' := by
        intro s hs
        rcases List.mem_append.mp hs with hs1 | hs2
        · exact hd s hs1
        · rcases List.mem_map.mp hs2 with ⟨p, _, hp⟩
          rw [← hp]
          exact replace_empty_head (goTrimSuffixSlash p)
      by_cases hm : (bucketlistWithRetry b ⟨kp, "/", marker, listMax⟩).markerOut = ""
      · simp only [hm, if_pos rfl] at h
        have hout : out =
            (files ++ (bucketlistWithRetry b ⟨kp, "/", marker, listMax⟩).items.map
               (fun it => goReplace1 it.key "" "/"),
             dirs ++ (bucketlistWithRetry b ⟨kp, "/", marker, listMax⟩).commonPrefixes.map
               (fun p => goReplace1 (goTrimSuffixSlash p) "" "/")) := by
          simpa using h.symm
        subst hout
        exact ⟨hf2, hd2⟩
      · simp only [hm, if_neg hm] at h
        exact ih _ _ _ _ hf2 hd2 h

/-- C7: when the configured root yields an empty root key, every file and
directory path a successful List returns begins with a slash, and List
returns PathNotFoundError exactly when the listed path is not the root and
the page loop finished with no entries and no common prefixes. -/
theorem C7_root_slash_normalization (b : Backend) (root opath : String)
    (fuel : Nat) (hroot : getKey root "" = "") :
    (∀ out, driverList b root opath fuel = some (Except.ok out) →
       ∀ s ∈ out, s.data.head? = some '/') ∧
    (∀ p, driverList b root opath fuel =
        some (Except.error (DErr.pathNotFound p)) ↔
       (p = opath ∧ opath ≠ "/" ∧
        listLoop b (getKey root (pathNorm opath)) "" "/" "" [] [] fuel =
          some (Except.ok ([], [])))) := by
  constructor
  · intro out hout s hs
    cases hL : listLoop b (getKey root (pathNorm opath)) "" "/" "" [] [] fuel with
    | none => simp [driverList, hroot, hL] at hout
    | some r =>
      cases r with
      | error e => simp [driverList, hroot, hL] at hout
      | ok fd =>
        have hall := listLoop_all_slash b (getKey root (pathNorm opath)) fuel ""
          [] [] fd (by simp) (by simp) hL
        by_cases hnf : opath ≠ "/" ∧ fd.1 = [] ∧ fd.2 = []
        · simp [driverList, hroot, hL, hnf] at hout
        · have : out = fd.1 ++ fd.2 := by
            simp [driverList, hroot, hL, hnf] at hout
            exact hout.symm
          subst this
          rcases List.mem_append.mp hs with hs1 | hs2
          · exact hall.1 s hs1
          · exact hall.2 s hs2
  · intro p
    constructor
    · intro h
      cases hL : listLoop b (getKey root (pathNorm opath)) "" "/" "" [] [] fuel with
      | none => simp [driverList, hroot, hL] at h
      | some r =>
        cases r with
        | error e =>
          simp [driverList, hroot, hL] at h
          rcases listLoop_raw_error b (getKey root (pathNorm opath)) "" "/" fuel ""
            [] [] e hL with ⟨e0, he0⟩
          rw [he0] at h
          exact absurd h.symm (by simp)
        | ok fd =>
          by_cases hnf : opath ≠ "/" ∧ fd.1 = [] ∧ fd.2 = []
          · have hp : p = opath := by
              simp [driverList, hroot, hL, hnf] at h
              exact h.symm
            refine ⟨hp, hnf.1, ?_⟩
            have : fd = ([], []) := by
              rcases hnf with ⟨_, h1, h2⟩
              cases fd
              simp_all
            rw [this]
          · simp [driverList, hroot, hL, hnf] at h
    · rintro ⟨hp, hne, hL⟩
      subst hp
      simp [driverList, hroot, hL, hne]

/-- Witness for C7: a one-page store under an empty root produces paths
beginning with a slash; an empty store produces PathNotFoundError for a
non-root path. -/
theorem C7_root_slash_normalization_witness :
    ((driverList bOnePage "" "/d" 1 = some (Except.ok ["/d/x", "/d/y"])) ∧
     "/d/x".data.head? = some '/') ∧
    driverList bStatEmpty "" "/d" 1 =
      some (Except.error (DErr.pathNotFound "/d")) := by
  constructor
  · constructor
    · decide
    · exact (C7_root_slash_normalization bOnePage "" "/d" 1 (by decide)).1
        ["/d/x", "/d/y"] (by decide) "/d/x" (by decide)
  · exact ((C7_root_slash_normalization bStatEmpty "" "/d" 1 (by decide)).2 "/d").mpr
      ⟨rfl, by decide, by decide⟩

end Kodo
